import Mathlib

/-!
Verification of the method-instrumentation layer of the yousign-v3-client
repository (src/decorators.ts) against its natural-language specification.

The embedding translates the source line by line:
  - capitalizeFirst      : decorators.ts lines 1-3
  - noHook               : decorators.ts lines 6-11 (the NoHook method decorator)
  - wrappedCall          : decorators.ts lines 32-48 (the synthesized async wrapper)
  - genHooks             : decorators.ts lines 16-56 (the GenHooks class decorator)
  - fire                 : the Hook Registry fire operation; the registry itself is
                           the external hookable library (createHooks), not part of
                           this repository, so fire is modelled from the spec.

Asynchronous operations are modelled as functions into Except (a rejected
promise is an error value); the observable effects of one wrapped call are
recorded as a list of Step values (the trace).
-/

namespace YousignHooks

/-- Model of capitalizeFirst (decorators.ts lines 1-3):
input.charAt(0).toUpperCase() + input.slice(1). The character uppercasing is
modelled with Char.toUpper (simple casing); on the empty string charAt(0) is
the empty string and slice(1) is the empty string, so the result is empty. -/
def capitalizeFirst (input : String) : String :=
  match input.data with
  | [] => ""
  | c :: cs => String.mk (Char.toUpper c :: cs)

/-- Name of the event fired before the underlying implementation
(decorators.ts line 41): the template literal onBefore followed by
capitalizeFirst of the method name (line 39). -/
def beforeEventName (key : String) : String :=
  "onBefore" ++ capitalizeFirst key

/-- Name of the event fired after the underlying implementation resolves
(decorators.ts line 45): the template literal onAfter followed by
capitalizeFirst of the method name (line 39). -/
def afterEventName (key : String) : String :=
  "onAfter" ++ capitalizeFirst key

/-- A Hook Registry: a mapping from event name to at most one handler.
A handler receives the fired payload (the argument list) and either returns
normally or fails synchronously with an error of type epsilon. -/
def Registry (alpha epsilon : Type) : Type :=
  String → Option (List alpha → Except epsilon Unit)

/-- Modelled from the spec: the Hook Registry fire operation (callHook of the
external hookable library, which is not part of this repository). Per spec
section 4.1: if a handler is registered for the event name, invoke it with the
payload; if no handler is registered, fire is a no-op and never raises;
handler failures are not caught by the registry and propagate to the caller
of fire. Asynchronous completion of a handler is not awaited, so only the
synchronous failure of a handler is represented by the error case. -/
def fire {alpha epsilon : Type} (reg : Registry alpha epsilon)
    (eventName : String) (payload : List alpha) : Except epsilon Unit :=
  match reg eventName with
  | none => Except.ok ()
  | some h => h payload

/-- One observable step of a wrapped call:
  - fired n args     : this.hooks.callHook(n, ...args) was invoked
  - callStarted args : the underlying implementation originalFn.apply(this, args)
                       began executing (so its side effects happen)
  - resolved r       : the underlying implementation resolved with value r. -/
inductive Step (alpha rho : Type) where
  | fired (eventName : String) (payload : List alpha)
  | callStarted (args : List alpha)
  | resolved (value : rho)
deriving DecidableEq, Repr

/-- Model of the synthesized wrapper (decorators.ts lines 32-48), the async
function installed in place of each wrapped method. Parameters:
  - hooks    : this.hooks; none models a falsy hooks attribute (line 33)
  - hooksErr : the error thrown at lines 34-36 (the HooksNotInitialized
               configuration error, in the code an Error with the message
               "You need to initialize hooks with Event before using it")
  - original : the captured originalFn (line 30), an async function modelled
               as argument list to Except
  - key      : the method name the wrapper was synthesized for
  - args     : the call arguments.
Returns the trace of observable steps together with the settled outcome of
the promise the wrapper returns. Control flow mirrors the source: check
hooks (line 33), fire the onBefore event with the call arguments (line 41,
not awaited, so only a synchronous handler failure propagates), await the
original (line 43), fire the onAfter event again with the call arguments
(line 45), return the resolved value (line 47). -/
def wrappedCall {alpha epsilon rho : Type}
    (hooks : Option (Registry alpha epsilon)) (hooksErr : epsilon)
    (original : List alpha → Except epsilon rho)
    (key : String) (args : List alpha) :
    List (Step alpha rho) × Except epsilon rho :=
  match hooks with
  | none => ([], Except.error hooksErr)
  | some reg =>
      match fire reg (beforeEventName key) args with
      | Except.error e =>
          ([Step.fired (beforeEventName key) args], Except.error e)
      | Except.ok _ =>
          match original args with
          | Except.error e =>
              ([Step.fired (beforeEventName key) args, Step.callStarted args],
               Except.error e)
          | Except.ok r =>
              ([Step.fired (beforeEventName key) args, Step.callStarted args,
                Step.resolved r, Step.fired (afterEventName key) args],
               match fire reg (afterEventName key) args with
               | Except.error e => Except.error e
               | Except.ok _ => Except.ok r)

/-- Number of fired steps with the given event name in a trace. -/
def firedCount {alpha rho : Type} (tr : List (Step alpha rho))
    (eventName : String) : Nat :=
  (tr.filter fun s =>
    match s with
    | Step.fired n _ => n == eventName
    | _ => false).length

/-! ## Static model: the GenHooks transformation over the prototype chain -/

/-- A JavaScript value as far as the __skipLog__ array is concerned:
NoHook pushes ClassMethodDecoratorContext objects (ctx, carrying the method
name), while the check in GenHooks compares against the string method key
(str). Strict equality between a string and a context object is false. -/
inductive SkipVal where
  | str (s : String)
  | ctx (methodName : String)
deriving DecidableEq, Repr

/-- Model of the NoHook method decorator (decorators.ts lines 6-11): it
pushes the decorator context object itself, not the method name string, onto
the __skipLog__ array. (In the source the array is moreover created on
target.constructor.prototype where target is the decorated method, i.e. on
Function.prototype, which the GenHooks prototype walk never reaches; the
chain model below attaches the array to the walked prototype object, the
reading most favorable to the exemption working at all.) -/
def noHook (skipLog : List SkipVal) (context : String) : List SkipVal :=
  skipLog ++ [SkipVal.ctx context]

/-- Model of the membership test proto.__skipLog__?.includes(key) at
decorators.ts line 28: key is the string property name; includes uses strict
equality, under which a string equals another string with the same
characters and never equals a context object. An absent __skipLog__ is
modelled by the empty list (the optional chain then yields a falsy value,
same outcome). -/
def skipCheck (skipLog : List SkipVal) (key : String) : Bool :=
  skipLog.any fun v =>
    match v with
    | SkipVal.str s => s == key
    | SkipVal.ctx _ => false

/-- A function value found in (or installed into) a property table:
either one of the original functions of the program, identified by a tag, or
the async wrapper that GenHooks synthesizes around an inner function for
property name key (decorators.ts lines 32-48; its call behavior is
wrappedCall with the inner function as original). -/
inductive FnVal where
  | orig (id : Nat)
  | wrapped (key : String) (inner : FnVal)
deriving DecidableEq, Repr

/-- The value of an own property descriptor: a function
(descriptor.value instanceof Function at line 27) or plain data. -/
inductive PropVal where
  | func (f : FnVal)
  | data (id : Nat)
deriving DecidableEq, Repr

/-- One object on the prototype chain: its own property table (own property
names in their enumeration order, each with its descriptor value) and the
__skipLog__ array consulted at this level. JavaScript own property names are
unique within one object. -/
structure ProtoObj where
  props : List (String × PropVal)
  skipLog : List SkipVal
deriving DecidableEq, Repr

/-- Own property lookup in a property table (the first binding wins;
own property names are unique anyway). -/
def lookupProp : List (String × PropVal) → String → Option PropVal
  | [], _ => none
  | (k, v) :: rest, key => if k == key then some v else lookupProp rest key

/-- Model of Object.defineProperty(table, key, descriptor): replace the
binding in place when the key is already present, otherwise append it. -/
def setProp : List (String × PropVal) → String → PropVal →
    List (String × PropVal)
  | [], key, v => [(key, v)]
  | (k, w) :: rest, key, v =>
      if k == key then (k, v) :: rest else (k, w) :: setProp rest key v

/-- One iteration of the forEach body (decorators.ts lines 21-52) for the
own property kv of the walked level: when its descriptor value is a function
and the key is not matched by the skip check of the level, install the
wrapped version of that function under the same key on the property table of
target.prototype (the accumulator); otherwise leave the accumulator alone. -/
def installEntry (slog : List SkipVal) (acc : List (String × PropVal))
    (kv : String × PropVal) : List (String × PropVal) :=
  match kv.2 with
  | PropVal.func f =>
      if skipCheck slog kv.1 then acc
      else setProp acc kv.1 (PropVal.func (FnVal.wrapped kv.1 f))
  | PropVal.data _ => acc

/-- Model of the forEach over one prototype level (decorators.ts lines
21-52). Descriptors are read from the walked level, and the snapshot of
names is taken before any replacement, so reads see the original values. -/
def processLevel (targetProps : List (String × PropVal)) (proto : ProtoObj) :
    List (String × PropVal) :=
  proto.props.foldl (installEntry proto.skipLog) targetProps

/-- Model of GenHooks (decorators.ts lines 16-56): starting from
target.prototype (proto0) the loop walks the prototype chain
(proto0 followed by its ancestors, ending at the model of Object.prototype)
until the prototype is null, and processes every level with processLevel,
always installing onto target.prototype. The result is the final own
property table of target.prototype. -/
def genHooks (proto0 : ProtoObj) (ancestors : List ProtoObj) :
    List (String × PropVal) :=
  (proto0 :: ancestors).foldl processLevel proto0.props

/-- The function a property table contributes for a key under a given skip
list: the value of the own property named key when it is a function and the
skip check does not match, and nothing otherwise. -/
def levelFnAux (slog : List SkipVal) (props : List (String × PropVal))
    (key : String) : Option FnVal :=
  match lookupProp props key with
  | some (PropVal.func f) => if skipCheck slog key then none else some f
  | _ => none

/-- The function a single chain level contributes for a key. -/
def levelFnFor (proto : ProtoObj) (key : String) : Option FnVal :=
  levelFnAux proto.skipLog proto.props key

/-- Accumulator step collecting the contribution of one chain level for a
key: a later contribution overrides an earlier one. -/
def occStep (key : String) (acc : Option FnVal) (lvl : ProtoObj) :
    Option FnVal :=
  match levelFnFor lvl key with
  | some f => some f
  | none => acc

/-- The source of the wrapper finally installed for a key: the contribution
of the last level on the chain (walk order) that contributes one. -/
def lastFnOcc (chain : List ProtoObj) (key : String) : Option FnVal :=
  chain.foldl (occStep key) none

/-- Model of Object.prototype: its function-valued own properties (a
representative subset of the standard built-ins, each an original function
with its own tag; the accessor property __proto__ has no descriptor.value
and is therefore not listed as a function). Object.prototype has no
__skipLog__ of its own. -/
def objectProto : ProtoObj :=
  { props :=
      [("constructor", PropVal.func (FnVal.orig 100)),
       ("hasOwnProperty", PropVal.func (FnVal.orig 101)),
       ("isPrototypeOf", PropVal.func (FnVal.orig 102)),
       ("propertyIsEnumerable", PropVal.func (FnVal.orig 103)),
       ("toLocaleString", PropVal.func (FnVal.orig 104)),
       ("toString", PropVal.func (FnVal.orig 105)),
       ("valueOf", PropVal.func (FnVal.orig 106))],
    skipLog := [] }

/-! ## Concrete sample instances used to evaluate the model -/

/-- An empty Hook Registry over Nat payloads and Nat errors: no handler is
registered for any event name (firing any event is then a no-op). -/
def emptyReg : Registry Nat Nat := fun _ => none

/-- Sample underlying operation that resolves to 7 on every argument list. -/
def constOp7 : List Nat → Except Nat Nat := fun _ => Except.ok 7

/-- Sample underlying operation that rejects with error 3. -/
def failOp3 : List Nat → Except Nat Nat := fun _ => Except.error 3

/-- A registry whose handler for the event onBeforeFoo fails synchronously
with error 5; no other event has a handler. -/
def throwingBeforeReg : Registry Nat Nat := fun n =>
  if n == "onBeforeFoo" then some (fun _ => Except.error 5) else none

/-- Prototype of a class declaring one method foo (orig 1) marked with the
NoHook decorator: the skip list holds the decorator context object that
noHook pushed for foo. -/
def fooProto : ProtoObj :=
  { props := [("constructor", PropVal.func (FnVal.orig 0)),
              ("foo", PropVal.func (FnVal.orig 1))],
    skipLog := noHook [] "foo" }

/-- Prototype of a derived class overriding foo with its own definition
(orig 2, the most-derived definition of foo on the chain). -/
def derivedProto : ProtoObj :=
  { props := [("constructor", PropVal.func (FnVal.orig 0)),
              ("foo", PropVal.func (FnVal.orig 2))],
    skipLog := [] }

/-- Prototype of the base class declaring foo (orig 1, the least-derived
definition of foo on the chain). -/
def baseProto : ProtoObj :=
  { props := [("constructor", PropVal.func (FnVal.orig 3)),
              ("foo", PropVal.func (FnVal.orig 1))],
    skipLog := [] }

/-- Prototype of a client class with its constructor and one declared
business operation, nothing marked exempt. -/
def clientProto : ProtoObj :=
  { props := [("constructor", PropVal.func (FnVal.orig 10)),
              ("createSignatureRequest", PropVal.func (FnVal.orig 11))],
    skipLog := [] }

/-! ## General lemmas about the chain transformation -/

lemma lookupProp_setProp_self (props : List (String × PropVal)) (key : String)
    (v : PropVal) : lookupProp (setProp props key v) key = some v := by
  induction props with
  | nil => simp [setProp, lookupProp]
  | cons kv rest ih =>
      obtain ⟨k, w⟩ := kv
      cases hk : k == key with
      | true => simp [setProp, hk, lookupProp]
      | false => simp [setProp, hk, lookupProp, ih]

lemma lookupProp_setProp_other (props : List (String × PropVal))
    (k key : String) (v : PropVal) (h : (k == key) = false) :
    lookupProp (setProp props k v) key = lookupProp props key := by
  induction props with
  | nil => simp [setProp, lookupProp, h]
  | cons kv rest ih =>
      obtain ⟨k2, w⟩ := kv
      cases hk2 : k2 == k with
      | true =>
          have hk2e : k2 = k := eq_of_beq hk2
          subst hk2e
          simp [setProp, lookupProp, h]
      | false => simp [setProp, hk2, lookupProp, ih]

lemma lookupProp_not_mem (props : List (String × PropVal)) (key : String)
    (h : key ∉ props.map Prod.fst) : lookupProp props key = none := by
  induction props with
  | nil => rfl
  | cons kv rest ih =>
      obtain ⟨k, w⟩ := kv
      simp only [List.map_cons, List.mem_cons, not_or] at h
      have hk : (k == key) = false := by
        simp only [beq_eq_false_iff_ne]
        exact fun e => h.1 e.symm
      simp [lookupProp, hk, ih h.2]

lemma lookupProp_foldl_installEntry (slog : List SkipVal)
    (props : List (String × PropVal)) (key : String)
    (hnd : (props.map Prod.fst).Nodup) :
    ∀ acc : List (String × PropVal),
    lookupProp (props.foldl (installEntry slog) acc) key =
      (levelFnAux slog props key).elim (lookupProp acc key)
        (fun f => some (PropVal.func (FnVal.wrapped key f))) := by
  induction props with
  | nil => intro acc; rfl
  | cons kv rest ih =>
      obtain ⟨k, v⟩ := kv
      simp only [List.map_cons, List.nodup_cons] at hnd
      intro acc
      rw [List.foldl_cons, ih hnd.2]
      cases hk : k == key with
      | true =>
          have hke : k = key := eq_of_beq hk
          subst hke
          have hrest : lookupProp rest k = none :=
            lookupProp_not_mem rest k hnd.1
          have haux : levelFnAux slog rest k = none := by
            simp [levelFnAux, hrest]
          rw [haux]
          cases v with
          | func f =>
              cases hs : skipCheck slog k with
              | true => simp [installEntry, hs, levelFnAux, lookupProp]
              | false =>
                  simp [installEntry, hs, levelFnAux, lookupProp,
                        lookupProp_setProp_self]
          | data i => simp [installEntry, levelFnAux, lookupProp, hrest]
      | false =>
          have hstep : levelFnAux slog ((k, v) :: rest) key
              = levelFnAux slog rest key := by
            simp [levelFnAux, lookupProp, hk]
          rw [hstep]
          cases hocc : levelFnAux slog rest key with
          | some f => simp
          | none =>
              simp only [Option.elim_none]
              cases v with
              | func f =>
                  cases hs : skipCheck slog k with
                  | true => simp [installEntry, hs]
                  | false =>
                      simp [installEntry, hs,
                            lookupProp_setProp_other acc k key _ hk]
              | data i => simp [installEntry]

lemma foldl_occStep_shift (key : String) (chain : List ProtoObj) :
    ∀ a : Option FnVal,
    chain.foldl (occStep key) a =
      (chain.foldl (occStep key) none).elim a some := by
  induction chain with
  | nil => intro a; rfl
  | cons lvl rest ih =>
      intro a
      rw [List.foldl_cons, List.foldl_cons, ih (occStep key a lvl),
          ih (occStep key none lvl)]
      cases hocc : rest.foldl (occStep key) none with
      | some f => simp
      | none =>
          simp only [Option.elim_none]
          cases hl : levelFnFor lvl key with
          | some f => simp [occStep, hl]
          | none => simp [occStep, hl]

lemma lookupProp_foldl_processLevel (key : String) (chain : List ProtoObj)
    (hnd : ∀ lvl ∈ chain, (lvl.props.map Prod.fst).Nodup) :
    ∀ acc : List (String × PropVal),
    lookupProp (chain.foldl processLevel acc) key =
      (lastFnOcc chain key).elim (lookupProp acc key)
        (fun f => some (PropVal.func (FnVal.wrapped key f))) := by
  induction chain with
  | nil => intro acc; rfl
  | cons lvl rest ih =>
      intro acc
      have hlvl : (lvl.props.map Prod.fst).Nodup :=
        hnd lvl (List.mem_cons_self lvl rest)
      have hrest : ∀ l ∈ rest, (l.props.map Prod.fst).Nodup :=
        fun l hl => hnd l (List.mem_cons_of_mem lvl hl)
      rw [List.foldl_cons, ih hrest (processLevel acc lvl)]
      have h1 : lookupProp (processLevel acc lvl) key =
          (levelFnFor lvl key).elim (lookupProp acc key)
            (fun f => some (PropVal.func (FnVal.wrapped key f))) :=
        lookupProp_foldl_installEntry lvl.skipLog lvl.props key hlvl acc
      have h2 : lastFnOcc (lvl :: rest) key =
          (lastFnOcc rest key).elim (occStep key none lvl) some := by
        show rest.foldl (occStep key) (occStep key none lvl) = _
        exact foldl_occStep_shift key rest (occStep key none lvl)
      rw [h1, h2]
      cases hocc : lastFnOcc rest key with
      | some f => simp
      | none =>
          simp only [Option.elim_none]
          cases hl : levelFnFor lvl key with
          | some f => simp [occStep, hl]
          | none => simp [occStep, hl]

lemma beforeEventName_ne_afterEventName (key : String) :
    beforeEventName key ≠ afterEventName key := by
  intro h
  have hlen := congrArg String.length h
  simp only [beforeEventName, afterEventName, String.length_append] at hlen
  have h8 : ("onBefore" : String).length = 8 := rfl
  have h7 : ("onAfter" : String).length = 7 := rfl
  rw [h8, h7] at hlen
  omega

/-! ## The claims -/

/-- Claim C1, evidence of the code bug: a call of the wrapped operation foo
with argument list [5] whose underlying implementation resolves to 7 fires
the after-event onAfterFoo with the call arguments [5] as payload, and no
step of the trace carries the resolved value 7 as an event payload. The
claim (and the repository type MethodToAfterEvent, which declares the
handler parameter as the awaited return value of the method) requires the
after-event to carry the resolved value; decorators.ts line 45 passes
...args instead. -/
theorem c1_after_event_payload_is_args :
    wrappedCall (some emptyReg) 99 constOp7 "foo" [5] =
      ([Step.fired "onBeforeFoo" [5], Step.callStarted [5],
        Step.resolved 7, Step.fired "onAfterFoo" [5]], Except.ok 7) ∧
    Step.fired "onAfterFoo" ([7] : List Nat) ∉
      (wrappedCall (some emptyReg) 99 constOp7 "foo" [5]).1 :=
  ⟨rfl, by decide⟩

/-- Claim C2, counterexample: for the operation name create, the event the
wrapper fires before the underlying implementation is onBeforeCreate, not
the onBeginCreate required by the claim. -/
theorem c2_before_event_named_onBefore :
    (wrappedCall (some emptyReg) 99 constOp7 "create" [5]).1.head? =
      some (Step.fired "onBeforeCreate" [5]) ∧
    "onBeforeCreate" ≠ "onBeginCreate" :=
  ⟨rfl, by decide⟩

/-- Claim C2, amended: for every operation name m, the event fired before
the underlying implementation is named "onBefore" followed by Capitalize(m)
and the event fired after resolution is named "onAfter" followed by
Capitalize(m), where capitalization uppercases only the first character of m
and leaves the rest unchanged. Stated over a successful run: the event
names occurring in the trace are exactly those two strings, spelled out from
the characters of m. -/
theorem c2_amended {alpha epsilon rho : Type} (reg : Registry alpha epsilon)
    (hooksErr : epsilon) (original : List alpha → Except epsilon rho)
    (c : Char) (cs : List Char) (args : List alpha) (r : rho)
    (hb : fire reg (beforeEventName (String.mk (c :: cs))) args =
      Except.ok ())
    (hr : original args = Except.ok r) :
    ((wrappedCall (some reg) hooksErr original (String.mk (c :: cs))
        args).1.filterMap
      (fun s => match s with | Step.fired n _ => some n | _ => none)) =
      ["onBefore" ++ String.mk (Char.toUpper c :: cs),
       "onAfter" ++ String.mk (Char.toUpper c :: cs)] := by
  have hname : beforeEventName (String.mk (c :: cs)) =
      "onBefore" ++ String.mk (Char.toUpper c :: cs) := by
    simp [beforeEventName, capitalizeFirst]
  have hb2 : fire reg ("onBefore" ++ String.mk (Char.toUpper c :: cs)) args =
      Except.ok () := by rwa [hname] at hb
  simp [wrappedCall, beforeEventName, afterEventName, capitalizeFirst, hb2,
        hr]

/-- Witness for the amended claim C2 at the concrete operation name foo. -/
theorem c2_amended_witness :
    ((wrappedCall (some emptyReg) 99 constOp7 (String.mk ['f', 'o', 'o'])
        [5]).1.filterMap
      (fun s => match s with | Step.fired n _ => some n | _ => none)) =
      ["onBefore" ++ String.mk [Char.toUpper 'f', 'o', 'o'],
       "onAfter" ++ String.mk [Char.toUpper 'f', 'o', 'o']] :=
  c2_amended emptyReg 99 constOp7 'f' ['o', 'o'] [5] 7 rfl rfl

/-- Claim C3: for a non-exempt operation on an instrumented class with a
Hook Registry present (and, as the success path of the claim presumes, a
begin handler that does not fail and an underlying implementation that
resolves), one call produces exactly the trace: the begin-event fired, then
the underlying implementation running, then its resolution, then the
after-event fired; in particular exactly one begin-event and exactly one
after-event are fired, in that strict order around the underlying call. -/
theorem c3_begin_call_after_strict_order {alpha epsilon rho : Type}
    (reg : Registry alpha epsilon) (hooksErr : epsilon)
    (original : List alpha → Except epsilon rho) (key : String)
    (args : List alpha) (r : rho)
    (hb : fire reg (beforeEventName key) args = Except.ok ())
    (hr : original args = Except.ok r) :
    (wrappedCall (some reg) hooksErr original key args).1 =
      [Step.fired (beforeEventName key) args, Step.callStarted args,
       Step.resolved r, Step.fired (afterEventName key) args] ∧
    firedCount (wrappedCall (some reg) hooksErr original key args).1
      (beforeEventName key) = 1 ∧
    firedCount (wrappedCall (some reg) hooksErr original key args).1
      (afterEventName key) = 1 := by
  have hne : beforeEventName key ≠ afterEventName key :=
    beforeEventName_ne_afterEventName key
  have h1 : (afterEventName key == beforeEventName key) = false :=
    beq_eq_false_iff_ne.mpr (fun e => hne e.symm)
  have h2 : (beforeEventName key == afterEventName key) = false :=
    beq_eq_false_iff_ne.mpr hne
  have htr : (wrappedCall (some reg) hooksErr original key args).1 =
      [Step.fired (beforeEventName key) args, Step.callStarted args,
       Step.resolved r, Step.fired (afterEventName key) args] := by
    simp [wrappedCall, hb, hr]
  exact ⟨htr, by simp [firedCount, htr, h1], by simp [firedCount, htr, h2]⟩

/-- Witness for claim C3 at the concrete operation foo, argument 5,
resolved value 7, with the empty registry. -/
theorem c3_witness :
    (wrappedCall (some emptyReg) 99 constOp7 "foo" [5]).1 =
      [Step.fired (beforeEventName "foo") [5], Step.callStarted [5],
       Step.resolved 7, Step.fired (afterEventName "foo") [5]] ∧
    firedCount (wrappedCall (some emptyReg) 99 constOp7 "foo" [5]).1
      (beforeEventName "foo") = 1 ∧
    firedCount (wrappedCall (some emptyReg) 99 constOp7 "foo" [5]).1
      (afterEventName "foo") = 1 :=
  c3_begin_call_after_strict_order emptyReg 99 constOp7 "foo" [5] 7 rfl rfl

/-- Claim C4, evidence of the code bug: a method foo marked with NoHook at
declaration time is still wrapped by GenHooks, and calling the wrapper still
fires both the begin-event and the after-event. The skip list produced by
noHook holds the decorator context object, which the strict-equality
membership test against the string key never matches (in the source the
array moreover sits on Function.prototype, which the prototype walk never
consults), so no operation is ever exempt. -/
theorem c4_nohook_marked_method_still_wrapped :
    skipCheck (noHook [] "foo") "foo" = false ∧
    lookupProp (genHooks fooProto [objectProto]) "foo" =
      some (PropVal.func (FnVal.wrapped "foo" (FnVal.orig 1))) ∧
    firedCount (wrappedCall (some emptyReg) 99 constOp7 "foo" [5]).1
      "onBeforeFoo" = 1 ∧
    firedCount (wrappedCall (some emptyReg) 99 constOp7 "foo" [5]).1
      "onAfterFoo" = 1 :=
  ⟨rfl, rfl, rfl, rfl⟩

/-- Claim C5: invoking any wrapped operation on an instance whose hooks
attribute is absent yields the HooksNotInitialized configuration error
(modelled by the hooksErr value, raised in the non-suspending prefix of the
wrapper before anything else happens) and an empty trace: no event is fired
and, in particular, the underlying implementation never starts, so none of
its side effects ever happen. -/
theorem c5_missing_hooks_fail_fast {alpha epsilon rho : Type}
    (hooksErr : epsilon) (original : List alpha → Except epsilon rho)
    (key : String) (args : List alpha) :
    wrappedCall (none : Option (Registry alpha epsilon)) hooksErr original
      key args = ([], Except.error hooksErr) :=
  rfl

/-- Claim C6: with the Hook Registry present and handlers that do not fail,
the settled outcome of the wrapped operation equals the outcome of the
unwrapped original operation on the same arguments (return-value
transparency of the instrumentation). -/
theorem c6_return_value_transparency {alpha epsilon rho : Type}
    (reg : Registry alpha epsilon) (hooksErr : epsilon)
    (original : List alpha → Except epsilon rho) (key : String)
    (args : List alpha)
    (hb : fire reg (beforeEventName key) args = Except.ok ())
    (ha : fire reg (afterEventName key) args = Except.ok ()) :
    (wrappedCall (some reg) hooksErr original key args).2 = original args := by
  cases hr : original args with
  | error e => simp [wrappedCall, hb, hr]
  | ok r => simp [wrappedCall, hb, hr, ha]

/-- Witness for claim C6 at the concrete operation foo with the empty
registry. -/
theorem c6_witness :
    (wrappedCall (some emptyReg) 99 constOp7 "foo" [5]).2 = constOp7 [5] :=
  c6_return_value_transparency emptyReg 99 constOp7 "foo" [5] rfl rfl

/-- Claim C7, counterexample: on a chain where the derived class defines foo
as orig 2 (the most-derived definition) and the base class defines foo as
orig 1, the wrapper finally installed for foo delegates to orig 1, the base
definition, not to the most-derived one. -/
theorem c7_wrapper_delegates_to_base :
    lookupProp (genHooks derivedProto [baseProto, objectProto]) "foo" =
      some (PropVal.func (FnVal.wrapped "foo" (FnVal.orig 1))) ∧
    levelFnFor derivedProto "foo" = some (FnVal.orig 2) ∧
    FnVal.orig 1 ≠ FnVal.orig 2 :=
  ⟨rfl, rfl, by decide⟩

/-- Claim C7, amended: for every operation name occurring on the chain,
each function-valued (non-skipped) occurrence is wrapped and installed on
the class own prototype in walk order, so the finally installed property is
a single wrapper layer delegating to the definition contributed by the LAST
level of the chain that provides one, i.e. the least-derived definition of
that name. -/
theorem c7_amended (proto0 : ProtoObj) (ancestors : List ProtoObj)
    (key : String) (f : FnVal)
    (hnd : ∀ lvl ∈ proto0 :: ancestors, (lvl.props.map Prod.fst).Nodup)
    (hocc : lastFnOcc (proto0 :: ancestors) key = some f) :
    lookupProp (genHooks proto0 ancestors) key =
      some (PropVal.func (FnVal.wrapped key f)) := by
  unfold genHooks
  rw [lookupProp_foldl_processLevel key (proto0 :: ancestors) hnd proto0.props,
      hocc]
  rfl

/-- Witness for the amended claim C7 on the concrete derived/base chain. -/
theorem c7_amended_witness :
    lookupProp (genHooks derivedProto [baseProto, objectProto]) "foo" =
      some (PropVal.func (FnVal.wrapped "foo" (FnVal.orig 1))) :=
  c7_amended derivedProto [baseProto, objectProto] "foo" (FnVal.orig 1)
    (by decide) rfl

/-- Claim C8: when the underlying operation rejects with error e, the
wrapped operation settles with the very same error e, and the trace shows
the begin-event and the start of the underlying call only: no after-event
is fired and no error event of any kind is synthesized by the wrapper. -/
theorem c8_rejection_propagates_unchanged {alpha epsilon rho : Type}
    (reg : Registry alpha epsilon) (hooksErr : epsilon)
    (original : List alpha → Except epsilon rho) (key : String)
    (args : List alpha) (e : epsilon)
    (hb : fire reg (beforeEventName key) args = Except.ok ())
    (he : original args = Except.error e) :
    wrappedCall (some reg) hooksErr original key args =
      ([Step.fired (beforeEventName key) args, Step.callStarted args],
       Except.error e) := by
  simp [wrappedCall, hb, he]

/-- Witness for claim C8 at the concrete operation foo rejecting with
error 3. -/
theorem c8_witness :
    wrappedCall (some emptyReg) 99 failOp3 "foo" [5] =
      ([Step.fired (beforeEventName "foo") [5], Step.callStarted [5]],
       Except.error 3) :=
  c8_rejection_propagates_unchanged emptyReg 99 failOp3 "foo" [5] 3 rfl rfl

/-- Claim C9: when the handler registered for the begin-event fails
synchronously with error e, the failure is not caught: the wrapped call
settles with the same error e (it propagates to the wrapper caller) and the
trace consists of that single fired event, so the underlying operation
never runs. -/
theorem c9_begin_handler_failure_aborts {alpha epsilon rho : Type}
    (reg : Registry alpha epsilon) (hooksErr : epsilon)
    (original : List alpha → Except epsilon rho) (key : String)
    (args : List alpha) (e : epsilon)
    (hb : fire reg (beforeEventName key) args = Except.error e) :
    wrappedCall (some reg) hooksErr original key args =
      ([Step.fired (beforeEventName key) args], Except.error e) := by
  simp [wrappedCall, hb]

/-- Witness for claim C9: a registry whose onBeforeFoo handler fails with
error 5 makes the wrapped foo settle with error 5 before the underlying
operation runs. -/
theorem c9_witness :
    wrappedCall (some throwingBeforeReg) 99 constOp7 "foo" [5] =
      ([Step.fired (beforeEventName "foo") [5]], Except.error 5) :=
  c9_begin_handler_failure_aborts throwingBeforeReg 99 constOp7 "foo" [5] 5
    rfl

/-- Claim C10: GenHooks walks the chain to its end, so on the standard chain
of a client class over Object.prototype it wraps every function-valued own
property of every level: the declared business operation, the constructor
properties (the final constructor wrapper delegating to the Object
constructor, the last occurrence on the chain), and the Object.prototype
built-ins such as hasOwnProperty and toString, and installs all the wrapped
versions on the class own prototype, whose final table is exactly the list
below. -/
theorem c10_wraps_whole_chain :
    genHooks clientProto [objectProto] =
      [("constructor",
        PropVal.func (FnVal.wrapped "constructor" (FnVal.orig 100))),
       ("createSignatureRequest",
        PropVal.func (FnVal.wrapped "createSignatureRequest"
          (FnVal.orig 11))),
       ("hasOwnProperty",
        PropVal.func (FnVal.wrapped "hasOwnProperty" (FnVal.orig 101))),
       ("isPrototypeOf",
        PropVal.func (FnVal.wrapped "isPrototypeOf" (FnVal.orig 102))),
       ("propertyIsEnumerable",
        PropVal.func (FnVal.wrapped "propertyIsEnumerable"
          (FnVal.orig 103))),
       ("toLocaleString",
        PropVal.func (FnVal.wrapped "toLocaleString" (FnVal.orig 104))),
       ("toString",
        PropVal.func (FnVal.wrapped "toString" (FnVal.orig 105))),
       ("valueOf",
        PropVal.func (FnVal.wrapped "valueOf" (FnVal.orig 106)))] :=
  rfl

end YousignHooks
